import Mathlib

/-!
Verification of the `simple-redis` server sources against their
natural-language specification.

The development shallowly embeds the Rust sources:

* `src/resp/mod.rs` / `src/resp/encode.rs` / `src/resp/decode.rs` —
  the RESP frame algebra, encoder and streaming decoder;
* `src/cmd/mod.rs` / `src/cmd/map.rs` / `src/cmd/hmap.rs` — command
  parsing and execution;
* `src/backend/mod.rs` — the in-memory store;
* `src/network.rs` — the per-connection request loop.

Modelling conventions:

* Bytes are `Nat` (always < 256 on real inputs); Rust `BytesMut` / `Vec<u8>` /
  `&[u8]` become `List Nat`.  Advancing the mutable read cursor of a
  `BytesMut` is modelled by returning the remaining suffix alongside the
  result, so a decoder has type `List Nat → Except RespError α × List Nat`.
* Rust `String` is modelled by the list of its UTF-8 bytes; `str` ordering
  (used by `BTreeMap` and `sort_by`) coincides with byte-lexicographic
  ordering, which is what `lexLt` / `lexLe` implement.
* `i64` / `usize` become `Int` / `Nat` with the explicit range checks the
  Rust `FromStr` implementations perform.
* `f64` values are kept abstract: a `Double` frame stores the numeral text
  accepted by the grammar of Rust's `f64::from_str`.  No claim concerns the
  numeric value of a double, only the framing around it.
* The diagnostic message strings Rust builds with `format!` for
  `InvalidFrame` / `InvalidFrameType` (which interpolate `Debug` dumps of
  the buffer) are not modelled; the error constructors carry no payload.
  `InvalidFrameLength` keeps its numeric payload and `CommandError`
  messages are modelled byte-for-byte, because theorems mention them.
* The recursive decoder and `expect_length` are defined with a fuel
  parameter (structural recursion); the entry point `decode` supplies
  `buf.length + 1` fuel, which strictly exceeds the aggregate nesting depth
  reachable inside a buffer of that length (every nesting level consumes a
  header of at least 4 bytes), so the fuelled functions agree with the
  unbounded Rust recursion on every input.
-/

/-- The two-byte CRLF terminator (`const CRLF: &[u8] = b"\r\n"` in
`decode.rs`). -/
def crlf : List Nat := [13, 10]

/-- Bytes of a Lean string literal (used to transcribe the ASCII string
literals of the Rust sources). -/
def strBytes (s : String) : List Nat := s.toList.map Char.toNat

/-- ASCII lowercasing of one byte, as done by
`u8::to_ascii_lowercase`. -/
def asciiLowerByte (b : Nat) : Nat := if 65 ≤ b ∧ b ≤ 90 then b + 32 else b

/-- `slice::to_ascii_lowercase` from `validate_command` in `cmd/mod.rs`. -/
def toAsciiLower (s : List Nat) : List Nat := s.map asciiLowerByte

/-- Decimal digits of a natural number, fuelled so that the definition is
structural (`natToDec` supplies enough fuel).  Mirrors Rust's `Display`
formatting of an unsigned integer. -/
def natToDecF : Nat → Nat → List Nat
  | 0, _ => []
  | fuel + 1, n => if n < 10 then [48 + n] else natToDecF fuel (n / 10) ++ [48 + n % 10]

/-- Decimal ASCII representation of a natural number. -/
def natToDec (n : Nat) : List Nat := natToDecF (n + 1) n

/-- Decimal ASCII representation of an integer, as produced by Rust's
`Display` for `i64` (a `-` sign for negatives, no sign otherwise). -/
def intToDec (i : Int) : List Nat :=
  if i < 0 then 45 :: natToDec (-i).toNat else natToDec i.toNat

/-- Accumulating decimal parser: consumes ASCII digits only. -/
def parseDigitsGo : List Nat → Nat → Option Nat
  | [], acc => some acc
  | b :: r, acc => if 48 ≤ b ∧ b ≤ 57 then parseDigitsGo r (acc * 10 + (b - 48)) else none

/-- Parse a non-empty all-digit byte string. -/
def parseDigits : List Nat → Option Nat
  | [] => none
  | l => parseDigitsGo l 0

/-- Rust `usize::from_str` on the bytes of a string: an optional leading
`+`, then one or more ASCII digits, rejecting values outside the 64-bit
range.  Anything else is a `ParseIntError` (modelled as `none`). -/
def parseUsize (s : List Nat) : Option Nat :=
  let s2 := match s with
    | 43 :: r => r
    | _ => s
  match parseDigits s2 with
  | some n => if n < 2 ^ 64 then some n else none
  | none => none

/-- Rust `i64::from_str` on the bytes of a string: optional `+`/`-` sign,
one or more ASCII digits, 64-bit signed range check. -/
def parseI64 (s : List Nat) : Option Int :=
  match s with
  | 45 :: r =>
    match parseDigits r with
    | some n => if n ≤ 2 ^ 63 then some (-(n : Int)) else none
    | none => none
  | 43 :: r =>
    match parseDigits r with
    | some n => if n < 2 ^ 63 then some (n : Int) else none
    | none => none
  | _ =>
    match parseDigits s with
    | some n => if n < 2 ^ 63 then some (n : Int) else none
    | none => none

/-- Is a byte an ASCII digit? -/
def isDigitByte (b : Nat) : Bool := decide (48 ≤ b ∧ b ≤ 57)

/-- Strip one optional leading ASCII `+` or `-`. -/
def stripSign (s : List Nat) : List Nat :=
  match s with
  | 43 :: r => r
  | 45 :: r => r
  | _ => s

/-- The optional exponent suffix of Rust's `f64::from_str` grammar:
either nothing, or `e`/`E`, an optional sign and one or more digits, with
nothing trailing. -/
def f64ExpPart (s : List Nat) : Bool :=
  match s with
  | [] => true
  | c :: r =>
    if c = 101 ∨ c = 69 then
      let r2 := stripSign r
      let sp := r2.span isDigitByte
      decide (sp.1 ≠ [] ∧ sp.2 = [])
    else false

/-- The mantissa-and-exponent part of Rust's `f64::from_str` grammar:
`digits ['.' digits*]` or `'.' digits`, followed by `f64ExpPart`. -/
def f64Mantissa (s : List Nat) : Bool :=
  let sp := s.span isDigitByte
  match sp.2 with
  | 46 :: r =>
    let sp2 := r.span isDigitByte
    (decide (sp.1 ≠ [] ∨ sp2.1 ≠ [])) && f64ExpPart sp2.2
  | rest => (decide (sp.1 ≠ [])) && f64ExpPart rest

/-- The grammar accepted by Rust's `f64::from_str` (used by
`s.parse()?` in the `f64` decoder): an optional sign, then `inf`,
`infinity`, `nan` (case-insensitively) or a decimal mantissa with optional
exponent.  Only acceptance is modelled, not the resulting value. -/
def f64Accepts (s : List Nat) : Bool :=
  let m := stripSign s
  if toAsciiLower m = strBytes "inf" ∨ toAsciiLower m = strBytes "infinity" ∨
      toAsciiLower m = strBytes "nan" then true
  else f64Mantissa m

/-- Is a byte a UTF-8 continuation byte (`0x80..=0xBF`)? -/
def isUtf8Cont (b : Nat) : Bool := decide (128 ≤ b ∧ b ≤ 191)

/-- For a UTF-8 leading byte, the admissible range of the first
continuation byte and the number of further continuation bytes, following
the ranges of the standard library validator Rust uses. -/
def utf8LeadInfo (b : Nat) : Option (Nat × Nat × Nat) :=
  if 194 ≤ b ∧ b ≤ 223 then some (128, 191, 0)
  else if b = 224 then some (160, 191, 1)
  else if 225 ≤ b ∧ b ≤ 236 then some (128, 191, 1)
  else if b = 237 then some (128, 159, 1)
  else if 238 ≤ b ∧ b ≤ 239 then some (128, 191, 1)
  else if b = 240 then some (144, 191, 2)
  else if 241 ≤ b ∧ b ≤ 243 then some (128, 191, 2)
  else if b = 244 then some (128, 143, 2)
  else none

/-- Consume up to `n` continuation bytes; returns how many were consumed
and whether all `n` were present and valid. -/
def takeConts : Nat → List Nat → Nat × Bool
  | 0, _ => (0, true)
  | _ + 1, [] => (0, false)
  | n + 1, c :: r =>
    if isUtf8Cont c then
      let k := takeConts n r
      (k.1 + 1, k.2)
    else (0, false)

/-- One step of UTF-8 validation starting at byte `b` with remaining input
`rest`: the number of extra bytes belonging to the maximal subpart and
whether the full sequence was valid. -/
def utf8Step (b : Nat) (rest : List Nat) : Nat × Bool :=
  if b ≤ 127 then (0, true)
  else
    match utf8LeadInfo b with
    | none => (0, false)
    | some info =>
      match rest with
      | [] => (0, false)
      | c1 :: r1 =>
        if info.1 ≤ c1 ∧ c1 ≤ info.2.1 then
          let k := takeConts info.2.2 r1
          (k.1 + 1, k.2)
        else (0, false)

/-- Fuelled driver for `utf8Lossy`; fuel `l.length` always suffices since
every step consumes at least one byte. -/
def utf8LossyF : Nat → List Nat → List Nat
  | 0, _ => []
  | fuel + 1, l =>
    match l with
    | [] => []
    | b :: rest =>
      let s := utf8Step b rest
      (if s.2 then b :: rest.take s.1 else [239, 191, 189]) ++
        utf8LossyF fuel (rest.drop s.1)

/-- Rust's `String::from_utf8_lossy` on the bytes of a buffer: valid UTF-8
sequences are copied verbatim, each maximal invalid subpart is replaced by
the replacement character U+FFFD (bytes `EF BF BD`). -/
def utf8Lossy (l : List Nat) : List Nat := utf8LossyF l.length l

/-- Fuelled driver for `validUtf8`. -/
def validUtf8F : Nat → List Nat → Bool
  | 0, _ => true
  | fuel + 1, l =>
    match l with
    | [] => true
    | b :: rest =>
      let s := utf8Step b rest
      s.2 && validUtf8F fuel (rest.drop s.1)

/-- Rust's `String::from_utf8` validity check (used by the command layer's
`String::from_utf8(key.0)?`). -/
def validUtf8 (l : List Nat) : Bool := validUtf8F l.length l

/-- Byte-lexicographic strict order on byte strings; agrees with Rust's
`Ord` for `String` (used by `BTreeMap`). -/
def lexLt : List Nat → List Nat → Bool
  | [], [] => false
  | [], _ :: _ => true
  | _ :: _, [] => false
  | a :: xs, b :: ys => if a < b then true else if a = b then lexLt xs ys else false

/-- Byte-lexicographic non-strict order on byte strings; `lexLe a b` is
Rust's `a.cmp(&b) != Greater`. -/
def lexLe : List Nat → List Nat → Bool
  | [], _ => true
  | _ :: _, [] => false
  | a :: xs, b :: ys => if a < b then true else if a = b then lexLe xs ys else false

/-- Lookup in an association list keyed by byte strings; models
`DashMap::get` (hash maps are modelled as association lists, their
unspecified iteration order becoming list order). -/
def alLookup {α : Type} : List (List Nat × α) → List Nat → Option α
  | [], _ => none
  | (k, v) :: t, key => if k = key then some v else alLookup t key

/-- Insert-or-replace in an association list; models `DashMap::insert`
(replacing keeps the entry's position, appending puts new keys last). -/
def alInsert {α : Type} : List (List Nat × α) → List Nat → α → List (List Nat × α)
  | [], key, v => [(key, v)]
  | (k, w) :: t, key, v =>
    if k = key then (key, v) :: t else (k, w) :: alInsert t key v

/-- Insert-or-replace in a key-sorted association list; models
`BTreeMap::insert` (the map backing `RespMap`). -/
def btreeInsert {α : Type} : List (List Nat × α) → List Nat → α → List (List Nat × α)
  | [], key, v => [(key, v)]
  | (k, w) :: t, key, v =>
    if lexLt key k then (key, v) :: (k, w) :: t
    else if key = k then (key, v) :: t
    else (k, w) :: btreeInsert t key v

/-- The RESP frame algebra of `resp/mod.rs` (`enum RespFrame`).  The
wrapper structs `SimpleString(String)`, `SimpleError(String)`,
`BulkString(Vec<u8>)`, `RespArray(Vec<RespFrame>)`,
`RespMap(BTreeMap<String, RespFrame>)`, `RespSet(Vec<RespFrame>)` are
inlined into the constructors; a `RespMap` is the key-sorted association
list a `BTreeMap` iterates as.  A `double` stores the accepted numeral
text of the `f64` (see the header comment). -/
inductive RespFrame where
  | simpleString (s : List Nat)
  | simpleError (s : List Nat)
  | integer (i : Int)
  | bulkString (b : List Nat)
  | nullBulkString
  | array (xs : List RespFrame)
  | nullArray
  | null
  | boolean (b : Bool)
  | double (s : List Nat)
  | map (m : List (List Nat × RespFrame))
  | set (xs : List RespFrame)

/-- The decoder error enumeration of `resp/mod.rs` (`enum RespError`).
The `String` payloads of `InvalidFrame` / `InvalidFrameType` and the std
error payloads of the parse/UTF-8 variants are diagnostic text only and
are not modelled; `InvalidFrameLength` keeps its `isize` payload. -/
inductive RespError where
  | invalidFrame
  | invalidFrameType
  | invalidFrameLength (n : Int)
  | notComplete
  | parseIntError
  | utf8Error
  | parseFloatError

mutual

/-- `RespEncode::encode` from `resp/encode.rs`, one match arm per `impl`.
The map arm inlines `SimpleString::new(key).encode()` for each key, as the
Rust loop does. -/
def RespFrame.encode : RespFrame → List Nat
  | .simpleString s => 43 :: (s ++ crlf)
  | .simpleError s => 45 :: (s ++ crlf)
  | .integer i => 58 :: ((if i < 0 then [] else [43]) ++ intToDec i ++ crlf)
  | .bulkString b => 36 :: (natToDec b.length ++ crlf ++ b ++ crlf)
  | .nullBulkString => [36, 45, 49, 13, 10]
  | .array xs => 42 :: (natToDec xs.length ++ crlf ++ encodeList xs)
  | .nullArray => [42, 45, 49, 13, 10]
  | .null => [95, 13, 10]
  | .boolean b => if b then [35, 116, 13, 10] else [35, 102, 13, 10]
  | .double s => 44 :: (s ++ crlf)
  | .map m => 37 :: (natToDec m.length ++ crlf ++ encodeMapEntries m)
  | .set xs => 126 :: (natToDec xs.length ++ crlf ++ encodeList xs)

/-- The `for frame in self.0 { buf.extend_from_slice(&frame.encode()) }`
loops of the array and set encoders. -/
def encodeList : List RespFrame → List Nat
  | [] => []
  | f :: fs => f.encode ++ encodeList fs

/-- The `for (key, value) in self.0` loop of the map encoder: each entry
is `SimpleString::new(key).encode()` (inlined as `+key\r\n`) followed by
the encoded value. -/
def encodeMapEntries : List (List Nat × RespFrame) → List Nat
  | [] => []
  | (k, v) :: t => (43 :: (k ++ crlf)) ++ v.encode ++ encodeMapEntries t

end

/-- A decode step: the result together with what remains of the mutable
buffer (Rust mutates the `BytesMut` in place; an error may still have
advanced the cursor, which is exactly what the atomicity claims are
about). -/
abbrev DecStep (α : Type) : Type := Except RespError α × List Nat

/-- The scan loop of `find_crlf` in `decode.rs`: walk adjacent byte pairs
looking for the `nth` occurrence of `\r\n`, reporting the index of the
`\r`.  `i` is the index of the head of the list being scanned. -/
def findCrlfGo : List Nat → Nat → Nat → Option Nat
  | a :: b :: rest, i, nth =>
    if a = 13 ∧ b = 10 then
      if nth = 1 then some i else findCrlfGo (b :: rest) (i + 1) (nth - 1)
    else findCrlfGo (b :: rest) (i + 1) nth
  | _, _, _ => none

/-- `find_crlf(buf, nth)` from `decode.rs`: the loop runs over
`1..buf.len()-1`, i.e. over all adjacent pairs strictly after index 0,
which is the scan of `findCrlfGo` started on `buf.drop 1` at index 1.
(Every caller has already checked `buf.len() >= 3`.) -/
def findCrlf (buf : List Nat) (nth : Nat) : Option Nat :=
  findCrlfGo (buf.drop 1) 1 nth

/-- `extract_simple_frame_data(buf, prefix)` from `decode.rs`: require at
least 3 bytes, require the prefix byte, then locate the first CRLF and
return the index of its `\r`.  Pure — it never advances the buffer. -/
def extractSimpleFrameData (buf pfx : List Nat) : Except RespError Nat :=
  if buf.length < 3 then .error .notComplete
  else if ¬ pfx.isPrefixOf buf then .error .invalidFrameType
  else
    match findCrlf buf 1 with
    | some e => .ok e
    | none => .error .notComplete

/-- `extract_fixed_data(buf, expect, expect_type)` from `decode.rs`:
require enough bytes, require the literal `expect`, then
`buf.advance(expect.len())`.  (The `expect_type` argument only feeds the
unmodelled diagnostic message.) -/
def extractFixedData (buf expect : List Nat) : DecStep Unit :=
  if buf.length < expect.length then (.error .notComplete, buf)
  else if ¬ expect.isPrefixOf buf then (.error .invalidFrameType, buf)
  else (.ok (), buf.drop expect.length)

/-- `parse_length(buf, prefix)` from `decode.rs`: find the header CRLF,
then parse the bytes between the prefix and the CRLF as a `usize` (via
`from_utf8_lossy` and `str::parse`). -/
def parseLength (buf pfx : List Nat) : Except RespError (Nat × Nat) :=
  match extractSimpleFrameData buf pfx with
  | .error e => .error e
  | .ok e =>
    match parseUsize (utf8Lossy ((buf.drop pfx.length).take (e - pfx.length))) with
    | some n => .ok (e, n)
    | none => .error .parseIntError

/-- The shared body of the simple-frame decoders (`SimpleString`,
`SimpleError`, `i64`, `f64` in `decode.rs`): locate the CRLF, split off
`end + CRLF_LEN` bytes and return the lossily-decoded payload between the
prefix and the CRLF.  On failure the buffer is untouched. -/
def simpleSplit (buf pfx : List Nat) : DecStep (List Nat) :=
  match extractSimpleFrameData buf pfx with
  | .error e => (.error e, buf)
  | .ok e =>
    let data := buf.take (e + 2)
    (.ok (utf8Lossy ((data.drop pfx.length).take (e - pfx.length))), buf.drop (e + 2))

/-- `impl RespDecode for SimpleString` (`decode`). -/
def simpleStringDecode (buf : List Nat) : DecStep RespFrame :=
  match simpleSplit buf [43] with
  | (.ok s, rest) => (.ok (.simpleString s), rest)
  | (.error e, rest) => (.error e, rest)

/-- `impl RespDecode for SimpleError` (`decode`). -/
def simpleErrorDecode (buf : List Nat) : DecStep RespFrame :=
  match simpleSplit buf [45] with
  | (.ok s, rest) => (.ok (.simpleError s), rest)
  | (.error e, rest) => (.error e, rest)

/-- `impl RespDecode for i64` (`decode`): the buffer is split **before**
parsing, so a `ParseIntError` is reported with the bytes already
consumed. -/
def i64Decode (buf : List Nat) : DecStep RespFrame :=
  match simpleSplit buf [58] with
  | (.ok s, rest) =>
    match parseI64 s with
    | some n => (.ok (.integer n), rest)
    | none => (.error .parseIntError, rest)
  | (.error e, rest) => (.error e, rest)

/-- `impl RespDecode for f64` (`decode`): split, then parse; only the
acceptance of the numeral is modelled. -/
def f64Decode (buf : List Nat) : DecStep RespFrame :=
  match simpleSplit buf [44] with
  | (.ok s, rest) =>
    if f64Accepts s then (.ok (.double s), rest) else (.error .parseFloatError, rest)
  | (.error e, rest) => (.error e, rest)

/-- `impl RespDecode for bool` (`decode`): try `#t\r\n`, propagate
`NotComplete`, otherwise try `#f\r\n`.  A failed `extract_fixed_data`
leaves the buffer untouched, so the second attempt sees the original
buffer. -/
def boolDecode (buf : List Nat) : DecStep RespFrame :=
  match extractFixedData buf [35, 116, 13, 10] with
  | (.ok _, rest) => (.ok (.boolean true), rest)
  | (.error .notComplete, rest) => (.error .notComplete, rest)
  | (.error _, _) =>
    match extractFixedData buf [35, 102, 13, 10] with
    | (.ok _, rest) => (.ok (.boolean false), rest)
    | (.error e, rest) => (.error e, rest)

/-- `impl RespDecode for RespNull` (`decode`): extract `_\r\n`, then
reject (with `InvalidFrameLength(buf.len())`) unless the buffer is now
empty — the rejection happens **after** the marker was consumed. -/
def nullDecode (buf : List Nat) : DecStep RespFrame :=
  match extractFixedData buf [95, 13, 10] with
  | (.error e, rest) => (.error e, rest)
  | (.ok _, rest) =>
    if ¬ rest.isEmpty then (.error (.invalidFrameLength (rest.length : Int)), rest)
    else (.ok .null, rest)

/-- `impl RespDecode for RespNullArray` (`decode`): like `nullDecode`
with the marker `*-1\r\n`. -/
def nullArrayDecode (buf : List Nat) : DecStep RespFrame :=
  match extractFixedData buf [42, 45, 49, 13, 10] with
  | (.error e, rest) => (.error e, rest)
  | (.ok _, rest) =>
    if ¬ rest.isEmpty then (.error (.invalidFrameLength (rest.length : Int)), rest)
    else (.ok .nullArray, rest)

/-- `impl RespDecode for RespNullBulkString` (`decode`): like
`nullDecode` with the marker `$-1\r\n`. -/
def nullBulkStringDecode (buf : List Nat) : DecStep RespFrame :=
  match extractFixedData buf [36, 45, 49, 13, 10] with
  | (.error e, rest) => (.error e, rest)
  | (.ok _, rest) =>
    if ¬ rest.isEmpty then (.error (.invalidFrameLength (rest.length : Int)), rest)
    else (.ok .nullBulkString, rest)

/-- `impl RespDecode for BulkString` (`decode`): parse the length header,
require `len + 2` payload bytes, advance past the header, split off
`len + 2` bytes and keep the first `len` as the payload. -/
def bulkStringDecode (buf : List Nat) : DecStep RespFrame :=
  match parseLength buf [36] with
  | .error e => (.error e, buf)
  | .ok (e, len) =>
    let remained := buf.drop (e + 2)
    if remained.length < len + 2 then (.error .notComplete, buf)
    else
      let data := remained.take (len + 2)
      (.ok (.bulkString (data.take len)), remained.drop (len + 2))

/-- `SimpleString::expect_length` / `SimpleError::expect_length` /
`i64::expect_length` / `f64::expect_length`: header CRLF index plus
`CRLF_LEN`. -/
def simpleExpectLength (buf pfx : List Nat) : Except RespError Nat :=
  match extractSimpleFrameData buf pfx with
  | .ok e => .ok (e + 2)
  | .error er => .error er

/-- The `"*" | "~"` loop of `calc_total_length` in `decode.rs`: sum the
`expect_length` of `len` successive children, `f` being
`RespFrame::expect_length`. -/
def calcChildrenLength (f : List Nat → Except RespError Nat) :
    Nat → List Nat → Nat → Except RespError Nat
  | 0, _, total => .ok total
  | k + 1, data, total =>
    match f data with
    | .error e => .error e
    | .ok n => calcChildrenLength f k (data.drop n) (total + n)

/-- The `"%"` loop of `calc_total_length`: per entry, a
`SimpleString::expect_length` for the key and an `f` for the value. -/
def calcMapLength (f : List Nat → Except RespError Nat) :
    Nat → List Nat → Nat → Except RespError Nat
  | 0, _, total => .ok total
  | k + 1, data, total =>
    match simpleExpectLength data [43] with
    | .error e => .error e
    | .ok n1 =>
      match f (data.drop n1) with
      | .error e => .error e
      | .ok n2 => calcMapLength f k ((data.drop n1).drop n2) (total + n1 + n2)

/-- `calc_total_length(buf, end, len, prefix)` from `decode.rs`:
aggregates recurse into the children (via `f`), every other prefix is
`len + CRLF_LEN`. -/
def calcTotalLength (f : List Nat → Except RespError Nat) (buf : List Nat)
    (e len : Nat) (pfx : List Nat) : Except RespError Nat :=
  if pfx = [42] ∨ pfx = [126] then calcChildrenLength f len (buf.drop (e + 2)) (e + 2)
  else if pfx = [37] then calcMapLength f len (buf.drop (e + 2)) (e + 2)
  else .ok (len + 2)

/-- `RespFrame::expect_length` from `decode.rs`, dispatching on the first
byte; any other byte (or an empty buffer) is `NotComplete`.  Fuelled for
structural recursion; `decode` supplies ample fuel. -/
def expectLength : Nat → List Nat → Except RespError Nat
  | 0, _ => .error .notComplete
  | fuel + 1, buf =>
    match buf.head? with
    | some 42 =>
      match parseLength buf [42] with
      | .error e => .error e
      | .ok (e, len) => calcTotalLength (expectLength fuel) buf e len [42]
    | some 126 =>
      match parseLength buf [126] with
      | .error e => .error e
      | .ok (e, len) => calcTotalLength (expectLength fuel) buf e len [126]
    | some 37 =>
      match parseLength buf [37] with
      | .error e => .error e
      | .ok (e, len) => calcTotalLength (expectLength fuel) buf e len [37]
    | some 36 =>
      match parseLength buf [36] with
      | .error e => .error e
      | .ok (e, len) => .ok (e + 2 + len + 2)
    | some 58 => simpleExpectLength buf [58]
    | some 43 => simpleExpectLength buf [43]
    | some 45 => simpleExpectLength buf [45]
    | some 35 => .ok 4
    | some 44 => simpleExpectLength buf [44]
    | some 95 => .ok 3
    | _ => .error .notComplete

/-- The `for _ in 0..len { frames.push(RespFrame::decode(buf)?) }` loop of
the array and set decoders: `d` is `RespFrame::decode`; a child error
aborts with whatever the child left in the buffer. -/
def decodeChildren (d : List Nat → DecStep RespFrame) :
    Nat → List Nat → DecStep (List RespFrame)
  | 0, buf => (.ok [], buf)
  | k + 1, buf =>
    match d buf with
    | (.error e, rest) => (.error e, rest)
    | (.ok f, rest) =>
      match decodeChildren d k rest with
      | (.ok fs, rest2) => (.ok (f :: fs), rest2)
      | (.error e, rest2) => (.error e, rest2)

/-- The entry loop of the map decoder: per entry a `SimpleString::decode`
for the key and a `RespFrame::decode` (`d`) for the value, inserted into
the `BTreeMap`. -/
def decodeMapPairs (d : List Nat → DecStep RespFrame) :
    Nat → List Nat → List (List Nat × RespFrame) → DecStep (List (List Nat × RespFrame))
  | 0, buf, acc => (.ok acc, buf)
  | k + 1, buf, acc =>
    match simpleSplit buf [43] with
    | (.error e, rest) => (.error e, rest)
    | (.ok key, rest) =>
      match d rest with
      | (.error e, rest2) => (.error e, rest2)
      | (.ok v, rest2) => decodeMapPairs d k rest2 (btreeInsert acc key v)

/-- `impl RespDecode for RespArray` (`decode`): parse the header, compute
the total length via `calc_total_length` (`f` is
`RespFrame::expect_length`), require that many bytes, advance past the
header and decode the children (`d` is `RespFrame::decode`). -/
def arrayDecodeBody (d : List Nat → DecStep RespFrame)
    (f : List Nat → Except RespError Nat) (buf : List Nat) : DecStep RespFrame :=
  match parseLength buf [42] with
  | .error e => (.error e, buf)
  | .ok (e, len) =>
    match calcTotalLength f buf e len [42] with
    | .error er => (.error er, buf)
    | .ok total =>
      if buf.length < total then (.error .notComplete, buf)
      else
        match decodeChildren d len (buf.drop (e + 2)) with
        | (.ok frames, rest) => (.ok (.array frames), rest)
        | (.error er, rest) => (.error er, rest)

/-- `impl RespDecode for RespSet` (`decode`); identical to the array body
except for the prefix and the resulting variant. -/
def setDecodeBody (d : List Nat → DecStep RespFrame)
    (f : List Nat → Except RespError Nat) (buf : List Nat) : DecStep RespFrame :=
  match parseLength buf [126] with
  | .error e => (.error e, buf)
  | .ok (e, len) =>
    match calcTotalLength f buf e len [126] with
    | .error er => (.error er, buf)
    | .ok total =>
      if buf.length < total then (.error .notComplete, buf)
      else
        match decodeChildren d len (buf.drop (e + 2)) with
        | (.ok frames, rest) => (.ok (.set frames), rest)
        | (.error er, rest) => (.error er, rest)

/-- `impl RespDecode for RespMap` (`decode`). -/
def mapDecodeBody (d : List Nat → DecStep RespFrame)
    (f : List Nat → Except RespError Nat) (buf : List Nat) : DecStep RespFrame :=
  match parseLength buf [37] with
  | .error e => (.error e, buf)
  | .ok (e, len) =>
    match calcTotalLength f buf e len [37] with
    | .error er => (.error er, buf)
    | .ok total =>
      if buf.length < total then (.error .notComplete, buf)
      else
        match decodeMapPairs d len (buf.drop (e + 2)) [] with
        | (.ok entries, rest) => (.ok (.map entries), rest)
        | (.error er, rest) => (.error er, rest)

/-- `impl RespDecode for RespFrame` (`decode`), dispatching on the peeked
first byte.  For `$` and `*` the null variant is attempted first:
`NotComplete` propagates, any other failure falls through to the
length-prefixed variant **on whatever the null attempt left in the
buffer** (the Rust match re-uses the same mutable buffer).  An empty
buffer is `NotComplete`, an unknown first byte `InvalidFrameType`. -/
def decodeRespFrame : Nat → List Nat → DecStep RespFrame
  | 0, buf => (.error .notComplete, buf)
  | fuel + 1, buf =>
    match buf.head? with
    | some 43 => simpleStringDecode buf
    | some 45 => simpleErrorDecode buf
    | some 58 => i64Decode buf
    | some 36 =>
      match nullBulkStringDecode buf with
      | (.ok f, rest) => (.ok f, rest)
      | (.error .notComplete, rest) => (.error .notComplete, rest)
      | (.error _, rest) => bulkStringDecode rest
    | some 42 =>
      match nullArrayDecode buf with
      | (.ok f, rest) => (.ok f, rest)
      | (.error .notComplete, rest) => (.error .notComplete, rest)
      | (.error _, rest) =>
        arrayDecodeBody (decodeRespFrame fuel) (expectLength fuel) rest
    | some 95 => nullDecode buf
    | some 35 => boolDecode buf
    | some 44 => f64Decode buf
    | some 37 => mapDecodeBody (decodeRespFrame fuel) (expectLength fuel) buf
    | some 126 => setDecodeBody (decodeRespFrame fuel) (expectLength fuel) buf
    | none => (.error .notComplete, buf)
    | some _ => (.error .invalidFrameType, buf)

/-- The decoder entry point: `RespFrame::decode` on a buffer, with fuel
strictly exceeding any reachable recursion depth (see the header
comment), returning the result and the remaining buffer. -/
def decode (buf : List Nat) : DecStep RespFrame := decodeRespFrame (buf.length + 1) buf

/-- The command-layer error enumeration of `cmd/mod.rs`
(`enum CommandError`).  The `InvalidCommand` / `InvalidArgument` messages
are modelled byte-for-byte; the wrapped std error payloads are not. -/
inductive CommandError where
  | invalidCommand (msg : List Nat)
  | invalidArgument (msg : List Nat)
  | respError (e : RespError)
  | utf8Error

/-- `struct Get` from `cmd/mod.rs`. -/
structure GetCmd where
  key : List Nat

/-- `struct Set` from `cmd/mod.rs`. -/
structure SetCmd where
  key : List Nat
  value : RespFrame

/-- `struct HGet` from `cmd/mod.rs`. -/
structure HGetCmd where
  key : List Nat
  field : List Nat

/-- `struct HSet` from `cmd/mod.rs`. -/
structure HSetCmd where
  key : List Nat
  field : List Nat
  value : RespFrame

/-- `struct HGetAll`: the `key` together with the `sort` flag consumed by
`HGetAll::execute` in `cmd/hmap.rs` (the wire parser always sets it to
`false`; the repository's tests set it to `true` by hand). -/
structure HGetAllCmd where
  key : List Nat
  sort : Bool

/-- `enum Command` from `cmd/mod.rs`. -/
inductive Command where
  | get (c : GetCmd)
  | set (c : SetCmd)
  | hget (c : HGetCmd)
  | hset (c : HSetCmd)
  | hgetall (c : HGetAllCmd)

/-- `names.join(" ")` in the `validate_command` error message. -/
def joinSpace : List (List Nat) → List Nat
  | [] => []
  | [n] => n
  | n :: rest => n ++ [32] ++ joinSpace rest

/-- The `for (i, name) in names.iter().enumerate()` loop of
`validate_command`: compare `value[i]` (after ASCII lowercasing) against
each expected name.  The arity check has already ensured
`names.len() <= value.len()`, so the Rust indexing never goes out of
bounds; the final catch-all case is unreachable. -/
def checkNames : List RespFrame → List (List Nat) → Except CommandError Unit
  | _, [] => .ok ()
  | f :: fs, name :: names =>
    match f with
    | .bulkString cmd =>
      if toAsciiLower cmd ≠ name then
        .error (.invalidCommand (strBytes "Invalid command: expected " ++ name ++
          strBytes ", got " ++ utf8Lossy cmd))
      else checkNames fs names
    | _ => .error (.invalidCommand
        (strBytes "Command must have a BulkString as the first argument"))
  | [], _ :: _ => .error (.invalidCommand
      (strBytes "Command must have a BulkString as the first argument"))

/-- `validate_command(value, names, n_args)` from `cmd/mod.rs`. -/
def validateCommand (value : List RespFrame) (names : List (List Nat))
    (nArgs : Nat) : Except CommandError Unit :=
  if value.length ≠ nArgs + names.length then
    .error (.invalidArgument (joinSpace names ++
      strBytes " command must have exactly " ++ natToDec nArgs ++
      strBytes " argument"))
  else checkNames value names

/-- `extract_args(value, start)` from `cmd/mod.rs`. -/
def extractArgs (value : List RespFrame) (start : Nat) : List RespFrame :=
  value.drop start

/-- `String::from_utf8` as used by the command parsers: the bytes
unchanged if valid UTF-8, a `FromUtf8Error` (`CommandError::Utf8Error`)
otherwise. -/
def stringFromUtf8 (b : List Nat) : Except CommandError (List Nat) :=
  if validUtf8 b then .ok b else .error .utf8Error

/-- `impl TryFrom<RespArray> for Get` from `cmd/map.rs`. -/
def getTryFrom (value : List RespFrame) : Except CommandError GetCmd :=
  match validateCommand value [strBytes "get"] 1 with
  | .error e => .error e
  | .ok _ =>
    match (extractArgs value 1).head? with
    | some (.bulkString key) =>
      match stringFromUtf8 key with
      | .ok k => .ok { key := k }
      | .error e => .error e
    | _ => .error (.invalidArgument (strBytes "Invalid key"))

/-- `impl TryFrom<RespArray> for Set` from `cmd/map.rs`. -/
def setTryFrom (value : List RespFrame) : Except CommandError SetCmd :=
  match validateCommand value [strBytes "set"] 2 with
  | .error e => .error e
  | .ok _ =>
    match extractArgs value 1 with
    | .bulkString key :: v :: _ =>
      match stringFromUtf8 key with
      | .ok k => .ok { key := k, value := v }
      | .error e => .error e
    | _ => .error (.invalidArgument (strBytes "Invalid key or value"))

/-- `impl TryFrom<RespArray> for HGet` from `cmd/hmap.rs`. -/
def hgetTryFrom (value : List RespFrame) : Except CommandError HGetCmd :=
  match validateCommand value [strBytes "hget"] 2 with
  | .error e => .error e
  | .ok _ =>
    match extractArgs value 1 with
    | .bulkString key :: .bulkString f :: _ =>
      match stringFromUtf8 key with
      | .error e => .error e
      | .ok k =>
        match stringFromUtf8 f with
        | .error e => .error e
        | .ok fd => .ok { key := k, field := fd }
    | _ => .error (.invalidArgument (strBytes "Invalid key or field"))

/-- `impl TryFrom<RespArray> for HGetAll` from `cmd/hmap.rs`; note the
hard-coded `sort: false`. -/
def hgetallTryFrom (value : List RespFrame) : Except CommandError HGetAllCmd :=
  match validateCommand value [strBytes "hgetall"] 1 with
  | .error e => .error e
  | .ok _ =>
    match (extractArgs value 1).head? with
    | some (.bulkString key) =>
      match stringFromUtf8 key with
      | .ok k => .ok { key := k, sort := false }
      | .error e => .error e
    | _ => .error (.invalidArgument (strBytes "Invalid key"))

/-- `impl TryFrom<RespArray> for HSet` from `cmd/hmap.rs`. -/
def hsetTryFrom (value : List RespFrame) : Except CommandError HSetCmd :=
  match validateCommand value [strBytes "hset"] 3 with
  | .error e => .error e
  | .ok _ =>
    match extractArgs value 1 with
    | .bulkString key :: .bulkString f :: v :: _ =>
      match stringFromUtf8 key with
      | .error e => .error e
      | .ok k =>
        match stringFromUtf8 f with
        | .error e => .error e
        | .ok fd => .ok { key := k, field := fd, value := v }
    | _ => .error (.invalidArgument (strBytes "Invalid key, field or value"))

/-- `impl TryFrom<RespArray> for Command` from `cmd/mod.rs`: dispatch on
the first element, which must be a `BulkString`, matched **byte-exactly**
against the lowercase command names; anything else is
`InvalidCommand("Invalid command: <name>")` with the name decoded
lossily. -/
def commandTryFromArray (v : List RespFrame) : Except CommandError Command :=
  match v.head? with
  | some (.bulkString cmd) =>
    if cmd = strBytes "get" then
      match getTryFrom v with
      | .ok c => .ok (.get c)
      | .error e => .error e
    else if cmd = strBytes "set" then
      match setTryFrom v with
      | .ok c => .ok (.set c)
      | .error e => .error e
    else if cmd = strBytes "hget" then
      match hgetTryFrom v with
      | .ok c => .ok (.hget c)
      | .error e => .error e
    else if cmd = strBytes "hset" then
      match hsetTryFrom v with
      | .ok c => .ok (.hset c)
      | .error e => .error e
    else if cmd = strBytes "hgetall" then
      match hgetallTryFrom v with
      | .ok c => .ok (.hgetall c)
      | .error e => .error e
    else
      .error (.invalidCommand (strBytes "Invalid command: " ++ utf8Lossy cmd))
  | _ => .error (.invalidCommand
      (strBytes "Command must have a BulkString as the first argument"))

/-- `BackendInner` from `backend/mod.rs`: the flat `map` and the
two-level `hmap`, each `DashMap` modelled as an association list. -/
structure Backend where
  map : List (List Nat × RespFrame)
  hmap : List (List Nat × List (List Nat × RespFrame))

/-- `Backend::new` / `Default`: both maps empty. -/
def Backend.new : Backend := { map := [], hmap := [] }

/-- `Backend::get`. -/
def Backend.get (b : Backend) (key : List Nat) : Option RespFrame :=
  alLookup b.map key

/-- `Backend::set`: `self.map.insert(key, value)` (the previous value is
discarded). -/
def Backend.set (b : Backend) (key : List Nat) (v : RespFrame) : Backend :=
  { b with map := alInsert b.map key v }

/-- `Backend::hget`. -/
def Backend.hget (b : Backend) (key fd : List Nat) : Option RespFrame :=
  match alLookup b.hmap key with
  | some m => alLookup m fd
  | none => none

/-- `Backend::hset`: `self.hmap.entry(key).or_default()` creates the
inner map when the key is new, then the field is inserted into it. -/
def Backend.hset (b : Backend) (key fd : List Nat) (v : RespFrame) : Backend :=
  { b with hmap :=
      alInsert b.hmap key (alInsert ((alLookup b.hmap key).getD []) fd v) }

/-- `Backend::hgetall`: a snapshot of the inner map, if present. -/
def Backend.hgetall (b : Backend) (key : List Nat) :
    Option (List (List Nat × RespFrame)) :=
  alLookup b.hmap key

/-- The `RESP_OK` lazy static of `cmd/mod.rs`:
`SimpleString::new("OK").into()`. -/
def respOK : RespFrame := .simpleString (strBytes "OK")

/-- One insertion step of the stable sort in `HGetAll::execute`
(`data.sort_by(|a, b| a.0.cmp(&b.0))`): place the pair before the first
strictly-greater key, after equal keys' earlier occurrences. -/
def insertPairLe (p : List Nat × RespFrame) :
    List (List Nat × RespFrame) → List (List Nat × RespFrame)
  | [] => [p]
  | q :: t => if lexLe p.1 q.1 then p :: q :: t else q :: insertPairLe p t

/-- Insertion sort by key, modelling `sort_by` with the byte-lexicographic
`String` comparison (stable, like Rust's `sort_by`). -/
def sortPairs : List (List Nat × RespFrame) → List (List Nat × RespFrame)
  | [] => []
  | p :: t => insertPairLe p (sortPairs t)

/-- `impl CommandExecutor for HGetAll` (the active version in
`cmd/hmap.rs`): snapshot the inner map, sort the pairs when `self.sort`,
then flatten each `(field, value)` into `[BulkString(field), value]` and
wrap in an `Array`; an absent key yields the empty `Array`. -/
def hgetallExecute (c : HGetAllCmd) (b : Backend) : RespFrame :=
  match alLookup b.hmap c.key with
  | some m =>
    let data := if c.sort then sortPairs m else m
    .array (data.map (fun kv => [RespFrame.bulkString kv.1, kv.2])).flatten
  | none => .array []

/-- `CommandExecutor::execute` for every command (`cmd/map.rs` and
`cmd/hmap.rs`): the response frame together with the store as left after
the execution (the Rust backend is mutated in place). -/
def Command.execute : Command → Backend → RespFrame × Backend
  | .get c, b =>
    (match b.get c.key with
     | some v => v
     | none => .null, b)
  | .set c, b => (respOK, b.set c.key c.value)
  | .hget c, b =>
    (match b.hget c.key c.field with
     | some v => v
     | none => .null, b)
  | .hset c, b => (respOK, b.hset c.key c.field c.value)
  | .hgetall c, b => (hgetallExecute c b, b)

/-- Modelled from the spec: the conversion from a decoded top-level frame
to a `Command` invoked by `request_handler` in `network.rs`
(`Command::try_from(frame)`), whose `impl TryFrom<RespFrame>` is absent
from the sources (only its caller is present).  Following §4.5 of the
spec — "Parses a top-level Array frame into a Command" — an `Array`
delegates to the `TryFrom<RespArray>` implementation and any other frame
is an invalid command. -/
def commandTryFromFrame (frame : RespFrame) : Except CommandError Command :=
  match frame with
  | .array xs => commandTryFromArray xs
  | _ => .error (.invalidCommand (strBytes "Command must be an Array"))

/-- `request_handler` from `network.rs`: parse the frame into a command
(`?` propagates the command error) and execute it against the backend. -/
def requestHandler (frame : RespFrame) (b : Backend) :
    Except CommandError (RespFrame × Backend) :=
  match commandTryFromFrame frame with
  | .error e => .error e
  | .ok cmd => .ok (cmd.execute b)

/-- How a connection's serving loop ended: clean EOF, or an error returned
by `stream_handler` (after which the task in `main.rs` logs and drops the
connection — the socket closes). -/
inductive ServeEnd where
  | eof
  | errored (e : CommandError)

/-- The loop of `stream_handler` in `network.rs`, applied to the sequence
of frames decoded off one connection: each frame is passed to
`request_handler`; on success the response is sent and the loop continues,
on error the loop returns the error at once (no response is written and no
further frame is served).  Yields the responses written, the final store
and how the loop ended. -/
def serveFrames : List RespFrame → Backend → List RespFrame × Backend × ServeEnd
  | [], b => ([], b, .eof)
  | f :: rest, b =>
    match requestHandler f b with
    | .error e => ([], b, .errored e)
    | .ok (resp, b2) =>
      let r := serveFrames rest b2
      (resp :: r.1, r.2)

/-- The store reached after executing `SET key v` for each `v` in `vs`, in
order, starting from `b` (the sequence of `Set::execute` calls of the
store-linearizability scenario). -/
def execSetList (key : List Nat) (vs : List RespFrame) (b : Backend) : Backend :=
  vs.foldl (fun acc v => (Command.execute (.set { key := key, value := v }) acc).2) b

/-- Looking up the key just inserted finds the inserted value. -/
theorem alLookup_alInsert_self {α : Type} (l : List (List Nat × α)) (k : List Nat) (v : α) :
    alLookup (alInsert l k v) k = some v := by
  induction l with
  | nil => simp [alInsert, alLookup]
  | cons p t ih =>
    obtain ⟨k2, v2⟩ := p
    by_cases h : k2 = k <;> simp [alInsert, alLookup, h, ih]

/-- Inserting under one key leaves lookups of any other key unchanged. -/
theorem alLookup_alInsert_ne {α : Type} (l : List (List Nat × α)) (k k2 : List Nat) (v : α)
    (h : k2 ≠ k) : alLookup (alInsert l k v) k2 = alLookup l k2 := by
  induction l with
  | nil => simp [alInsert, alLookup, Ne.symm h]
  | cons p t ih =>
    obtain ⟨k3, v3⟩ := p
    by_cases h3 : k3 = k
    · subst h3
      simp [alInsert, alLookup, Ne.symm h]
    · simp [alInsert, alLookup, h3, ih]

/-- After `SET key v` followed by the `SET`s of `vs`, `GET key` finds the
last value set. -/
theorem get_execSetList (vs : List RespFrame) (b : Backend) (key : List Nat) (v : RespFrame) :
    Backend.get (execSetList key (v :: vs) b) key = some (vs.getLastD v) := by
  induction vs generalizing b v with
  | nil =>
    simp [execSetList, Command.execute, Backend.get, Backend.set, alLookup_alInsert_self]
  | cons w t ih =>
    have h2 : execSetList key (v :: w :: t) b = execSetList key (w :: t) (Backend.set b key v) := by
      simp [execSetList, Command.execute]
    rw [h2, List.getLastD_cons]
    exact ih (Backend.set b key v) w

/-- `lexLe` is total. -/
theorem lexLe_total (xs ys : List Nat) : lexLe xs ys = true ∨ lexLe ys xs = true := by
  induction xs generalizing ys with
  | nil => simp [lexLe]
  | cons a xs ih =>
    cases ys with
    | nil => simp [lexLe]
    | cons b ys =>
      rcases lt_trichotomy a b with h | h | h
      · left; simp [lexLe, h]
      · subst h
        rcases ih ys with h2 | h2
        · left; simp [lexLe, h2]
        · right; simp [lexLe, h2]
      · right; simp [lexLe, h, Nat.ne_of_gt h]

/-- Inserting into a key-sorted pair list keeps it key-sorted. -/
theorem chain'_insertPairLe (p : List Nat × RespFrame) (l : List (List Nat × RespFrame))
    (h : List.Chain' (fun x y => lexLe x.1 y.1 = true) l) :
    List.Chain' (fun x y => lexLe x.1 y.1 = true) (insertPairLe p l) := by
  induction l with
  | nil => simp [insertPairLe]
  | cons q t ih =>
    cases hle : lexLe p.1 q.1 with
    | true =>
      simp only [insertPairLe, hle, if_true]
      exact List.chain'_cons.mpr ⟨hle, h⟩
    | false =>
      have hqp : lexLe q.1 p.1 = true := by
        rcases lexLe_total p.1 q.1 with h2 | h2
        · rw [hle] at h2; exact absurd h2 (by simp)
        · exact h2
      rw [List.chain'_cons'] at h
      have ht := ih h.2
      simp only [insertPairLe, hle, Bool.false_eq_true, if_false]
      rw [List.chain'_cons']
      refine ⟨?_, ht⟩
      intro y hy
      cases t with
      | nil =>
        simp [insertPairLe] at hy
        subst hy
        exact hqp
      | cons r t2 =>
        cases hpr : lexLe p.1 r.1 with
        | true =>
          simp [insertPairLe, hpr] at hy
          subst hy
          exact hqp
        | false =>
          simp [insertPairLe, hpr] at hy
          subst hy
          exact h.1 r (by simp)

/-- `sortPairs` yields a key-sorted list (keys ascending under `lexLe`). -/
theorem chain'_sortPairs (l : List (List Nat × RespFrame)) :
    List.Chain' (fun x y => lexLe x.1 y.1 = true) (sortPairs l) := by
  induction l with
  | nil => simp [sortPairs]
  | cons p t ih => exact chain'_insertPairLe p (sortPairs t) ih

/-- Claim C1 (code bug): the round-trip property fails on the empty array,
one of the frames the claim explicitly lists.  `encode(Array([]))` is
`*0\r\n`, but decoding those four bytes runs the `RespNullArray` attempt of
the `*` dispatch arm, whose `extract_fixed_data` needs five bytes and so
reports `NotComplete` — which the arm propagates.  Hence
`decode(encode(Array([])))` is `NotComplete` (with the buffer untouched)
instead of `Ok(Array([]))`. -/
theorem spec_c1_empty_array_roundtrip_fails :
    RespFrame.encode (.array []) = strBytes "*0\r\n" ∧
    decode (RespFrame.encode (.array [])) = (.error .notComplete, strBytes "*0\r\n") := by
  have h : RespFrame.encode (.array []) = strBytes "*0\r\n" := by
    simp [RespFrame.encode, encodeList, natToDec, natToDecF, crlf, strBytes]
  refine ⟨h, ?_⟩
  rw [h]
  rfl

/-- Claim C2 (code bug): decoding is not atomic.  On `*1\r\n*0\r\n` the
array decoder consumes the four header bytes and then the child hits the
`RespNullArray` `NotComplete` path, so `decode` returns `NotComplete`
with the read position advanced by four bytes.  On `:abc\r\n` the `i64`
decoder splits the frame off the buffer **before** parsing, so the
`ParseIntError` is returned with all six bytes consumed. -/
theorem spec_c2_decoder_consumes_on_needmore_and_error :
    decode (strBytes "*1\r\n*0\r\n") = (.error .notComplete, strBytes "*0\r\n") ∧
    strBytes "*0\r\n" = (strBytes "*1\r\n*0\r\n").drop 4 ∧
    decode (strBytes ":abc\r\n") = (.error .parseIntError, []) := by
  exact ⟨rfl, rfl, rfl⟩

/-- Claim C3 (counterexample): on the frame of `*1\r\n$7\r\nUNKNOWN\r\n`
the serving loop writes **no** response at all (in particular no
`SimpleError`), stops before the following well-formed `GET`, and ends
with the propagated `InvalidCommand` error — the connection closes
instead of continuing. -/
theorem spec_c3_invalid_command_closes_connection_cex :
    serveFrames [.array [.bulkString (strBytes "UNKNOWN")],
        .array [.bulkString (strBytes "get"), .bulkString (strBytes "x")]] Backend.new =
      ([], Backend.new, .errored (.invalidCommand (strBytes "Invalid command: UNKNOWN"))) := rfl

/-- Claim C3 (amended): for every received command array whose first
element is a `BulkString` naming none of the five (lowercase) commands,
`Command::try_from` yields `InvalidCommand("Invalid command: <name>")`;
`request_handler` propagates it with `?`, so the loop emits no response,
serves no later frame, and `stream_handler` returns the error — the
connection closes. -/
theorem spec_c3_invalid_command_propagates (name : List Nat) (args rest : List RespFrame)
    (b : Backend)
    (h1 : name ≠ strBytes "get") (h2 : name ≠ strBytes "set")
    (h3 : name ≠ strBytes "hget") (h4 : name ≠ strBytes "hset")
    (h5 : name ≠ strBytes "hgetall") :
    serveFrames (.array (.bulkString name :: args) :: rest) b =
      ([], b, .errored (.invalidCommand (strBytes "Invalid command: " ++ utf8Lossy name))) := by
  simp [serveFrames, requestHandler, commandTryFromFrame, commandTryFromArray,
    h1, h2, h3, h4, h5]

/-- Witness for the amended C3 theorem at the concrete command name
`echo`. -/
theorem spec_c3_invalid_command_propagates_witness :
    serveFrames [.array [.bulkString (strBytes "echo")]] Backend.new =
      ([], Backend.new,
        .errored (.invalidCommand (strBytes "Invalid command: " ++ utf8Lossy (strBytes "echo")))) :=
  spec_c3_invalid_command_propagates (strBytes "echo") [] [] Backend.new
    (by decide) (by decide) (by decide) (by decide) (by decide)

/-- Claim C4 (code bug): command-name matching is **not**
case-insensitive.  The dispatch of `TryFrom<RespArray> for Command`
compares the first `BulkString` byte-exactly against `b"get"` and
friends, so `GET` falls through to `InvalidCommand("Invalid command:
GET")`, while `get` parses to the `Get` command; only `validate_command`
(reached after a successful dispatch) lowercases. -/
theorem spec_c4_uppercase_command_rejected :
    commandTryFromArray [.bulkString (strBytes "GET"), .bulkString (strBytes "hello")] =
      .error (.invalidCommand (strBytes "Invalid command: GET")) ∧
    commandTryFromArray [.bulkString (strBytes "get"), .bulkString (strBytes "hello")] =
      .ok (.get { key := strBytes "hello" }) := by
  exact ⟨rfl, rfl⟩

/-- Claim C5 (code bug): for the valid encoding
`E = encode(Array([Null, Integer(1)])) = *2\r\n_\r\n:+1\r\n`, every call
on a strict prefix such as the first eight bytes does return `NotComplete`
with nothing consumed, but once the remaining bytes arrive the decode does
**not** succeed: the `Null` child is followed by the encoded integer, so
`RespNull::decode` rejects the non-empty buffer with
`InvalidFrameLength(5)` after consuming through the null marker. -/
theorem spec_c5_complete_encoding_fails_after_prefix :
    RespFrame.encode (.array [.null, .integer 1]) = strBytes "*2\r\n_\r\n:+1\r\n" ∧
    decode ((strBytes "*2\r\n_\r\n:+1\r\n").take 8) =
      (.error .notComplete, (strBytes "*2\r\n_\r\n:+1\r\n").take 8) ∧
    decode (strBytes "*2\r\n_\r\n:+1\r\n") =
      (.error (.invalidFrameLength 5), strBytes ":+1\r\n") := by
  refine ⟨?_, rfl, rfl⟩
  simp [RespFrame.encode, encodeList, natToDec, natToDecF, intToDec, crlf, strBytes]

/-- Claim C6 (code bug): the decoder rejects trailing bytes after each of
the three null encodings instead of consuming exactly the marker and
leaving the tail.  With trailing `kkk`, `_\r\n` yields
`InvalidFrameLength(3)` (after the marker was consumed), and `$-1\r\n` /
`*-1\r\n` fall through — on the buffer already stripped of the marker —
to the bulk-string / array decoder, which reports `InvalidFrameType`. -/
theorem spec_c6_null_encodings_reject_trailing_bytes :
    decode (strBytes "_\r\nkkk") = (.error (.invalidFrameLength 3), strBytes "kkk") ∧
    decode (strBytes "$-1\r\nkkk") = (.error .invalidFrameType, strBytes "kkk") ∧
    decode (strBytes "*-1\r\nkkk") = (.error .invalidFrameType, strBytes "kkk") := by
  exact ⟨rfl, rfl, rfl⟩

/-- Claim C7: `SET k v` answers `SimpleString("OK")` and stores `v` under
`k`; after `SET k v, SET k v₁, …, SET k vₙ` in order, `GET k` returns the
last value set; and `GET` of a never-set key on a fresh store returns
`Null`. -/
theorem spec_c7_set_then_get_returns_last (key : List Nat) (v : RespFrame)
    (vs : List RespFrame) (b : Backend) :
    (Command.execute (.set { key := key, value := v }) b).1 = respOK ∧
    Backend.get ((Command.execute (.set { key := key, value := v }) b).2) key = some v ∧
    (Command.execute (.get { key := key }) (execSetList key (v :: vs) b)).1 = vs.getLastD v ∧
    (Command.execute (.get { key := key }) Backend.new).1 = .null := by
  refine ⟨rfl, ?_, ?_, rfl⟩
  · simp [Command.execute, Backend.get, Backend.set, alLookup_alInsert_self]
  · simp [Command.execute, get_execSetList]

/-- Witness for the C7 theorem at a concrete key, two stored values and
the fresh store. -/
theorem spec_c7_witness :
    (Command.execute (.set { key := strBytes "hello", value := .bulkString (strBytes "w1") }) Backend.new).1 = respOK ∧
    Backend.get ((Command.execute (.set { key := strBytes "hello", value := .bulkString (strBytes "w1") }) Backend.new).2) (strBytes "hello") = some (.bulkString (strBytes "w1")) ∧
    (Command.execute (.get { key := strBytes "hello" }) (execSetList (strBytes "hello") [.bulkString (strBytes "w1"), .bulkString (strBytes "w2")] Backend.new)).1 = [RespFrame.bulkString (strBytes "w2")].getLastD (.bulkString (strBytes "w1")) ∧
    (Command.execute (.get { key := strBytes "hello" }) Backend.new).1 = .null :=
  spec_c7_set_then_get_returns_last (strBytes "hello") (.bulkString (strBytes "w1"))
    [.bulkString (strBytes "w2")] Backend.new

/-- Claim C8: executing `HGetAll` with `sort = true` returns, for an
absent key, the empty `Array`, and for a present inner map `m`, the
`Array` flattening the key-sorted pairs into alternating
`BulkString(field), value` entries; and `sortPairs` always produces keys
in ascending byte-lexicographic order. -/
theorem spec_c8_hgetall_sorted_flattened (b : Backend) (key : List Nat) :
    hgetallExecute { key := key, sort := true } b =
      (match alLookup b.hmap key with
       | some m => .array ((sortPairs m).map (fun kv => [RespFrame.bulkString kv.1, kv.2])).flatten
       | none => .array []) ∧
    ∀ m : List (List Nat × RespFrame),
      List.Chain' (fun p q => lexLe p.1 q.1 = true) (sortPairs m) := by
  refine ⟨?_, fun m => chain'_sortPairs m⟩
  cases h : alLookup b.hmap key <;> simp [hgetallExecute, h]

/-- Witness for the C8 theorem on a concrete store holding two fields
under `map`. -/
theorem spec_c8_witness :
    hgetallExecute { key := strBytes "map", sort := true }
        { map := [], hmap := [(strBytes "map", [(strBytes "hello", RespFrame.bulkString (strBytes "world")), (strBytes "goodbye", RespFrame.bulkString (strBytes "lin"))])] } =
      (match alLookup ({ map := [], hmap := [(strBytes "map", [(strBytes "hello", RespFrame.bulkString (strBytes "world")), (strBytes "goodbye", RespFrame.bulkString (strBytes "lin"))])] } : Backend).hmap (strBytes "map") with
       | some m => .array ((sortPairs m).map (fun kv => [RespFrame.bulkString kv.1, kv.2])).flatten
       | none => .array []) ∧
    ∀ m : List (List Nat × RespFrame),
      List.Chain' (fun p q => lexLe p.1 q.1 = true) (sortPairs m) :=
  spec_c8_hgetall_sorted_flattened _ (strBytes "map")

/-- Claim C9: the end-to-end `HSET`/`HGETALL` scenario.  The three wire
commands decode to the expected arrays and parse to the expected
commands (note the wire parser hard-codes `sort := false`; the scenario's
"sort on" is the flag the repository's test sets by hand, modelled here by
executing the `HGetAll` with `sort := true`).  Executing the two `HSET`s
and then the sorted `HGETALL` on a fresh store encodes to exactly the
byte sequence the claim states. -/
theorem spec_c9_hset_hgetall_end_to_end :
    decode (strBytes "*4\r\n$4\r\nhset\r\n$3\r\nmap\r\n$5\r\nhello\r\n$5\r\nworld\r\n") =
      (.ok (.array [.bulkString (strBytes "hset"), .bulkString (strBytes "map"),
        .bulkString (strBytes "hello"), .bulkString (strBytes "world")]), []) ∧
    decode (strBytes "*4\r\n$4\r\nhset\r\n$3\r\nmap\r\n$7\r\ngoodbye\r\n$3\r\nlin\r\n") =
      (.ok (.array [.bulkString (strBytes "hset"), .bulkString (strBytes "map"),
        .bulkString (strBytes "goodbye"), .bulkString (strBytes "lin")]), []) ∧
    decode (strBytes "*2\r\n$7\r\nhgetall\r\n$3\r\nmap\r\n") =
      (.ok (.array [.bulkString (strBytes "hgetall"), .bulkString (strBytes "map")]), []) ∧
    commandTryFromArray [.bulkString (strBytes "hset"), .bulkString (strBytes "map"),
        .bulkString (strBytes "hello"), .bulkString (strBytes "world")] =
      .ok (.hset { key := strBytes "map", field := strBytes "hello", value := .bulkString (strBytes "world") }) ∧
    commandTryFromArray [.bulkString (strBytes "hset"), .bulkString (strBytes "map"),
        .bulkString (strBytes "goodbye"), .bulkString (strBytes "lin")] =
      .ok (.hset { key := strBytes "map", field := strBytes "goodbye", value := .bulkString (strBytes "lin") }) ∧
    commandTryFromArray [.bulkString (strBytes "hgetall"), .bulkString (strBytes "map")] =
      .ok (.hgetall { key := strBytes "map", sort := false }) ∧
    RespFrame.encode (Command.execute
        (.hgetall { key := strBytes "map", sort := true })
        (Command.execute (.hset { key := strBytes "map", field := strBytes "goodbye", value := .bulkString (strBytes "lin") })
          (Command.execute (.hset { key := strBytes "map", field := strBytes "hello", value := .bulkString (strBytes "world") }) Backend.new).2).2).1 =
      strBytes "*4\r\n$7\r\ngoodbye\r\n$3\r\nlin\r\n$5\r\nhello\r\n$5\r\nworld\r\n" := by
  refine ⟨rfl, rfl, rfl, rfl, rfl, rfl, ?_⟩
  simp [Command.execute, Backend.hset, Backend.new, alInsert, alLookup, hgetallExecute,
    sortPairs, insertPairLe, lexLe, RespFrame.encode, encodeList, natToDec, natToDecF,
    crlf, strBytes]

/-- Claim C10: the flat map and the hash map are disjoint state
components.  `set` leaves the whole hash side (and with it every `hget` /
`hgetall`) unchanged, `hset` leaves the whole flat side (every `get`)
unchanged, and each operation leaves every entry other than the one it
targets unchanged. -/
theorem spec_c10_map_hmap_disjoint (b : Backend) (k k2 fd fd2 : List Nat) (v : RespFrame) :
    (Backend.set b k v).hmap = b.hmap ∧
    Backend.hget (Backend.set b k v) k2 fd = Backend.hget b k2 fd ∧
    Backend.hgetall (Backend.set b k v) k2 = Backend.hgetall b k2 ∧
    (Backend.hset b k fd v).map = b.map ∧
    Backend.get (Backend.hset b k fd v) k2 = Backend.get b k2 ∧
    (k2 ≠ k → Backend.get (Backend.set b k v) k2 = Backend.get b k2) ∧
    (k2 ≠ k → Backend.hgetall (Backend.hset b k fd v) k2 = Backend.hgetall b k2) ∧
    (k2 ≠ k ∨ fd2 ≠ fd → Backend.hget (Backend.hset b k fd v) k2 fd2 = Backend.hget b k2 fd2) := by
  refine ⟨rfl, rfl, rfl, rfl, rfl, ?_, ?_, ?_⟩
  · intro h
    simp [Backend.get, Backend.set, alLookup_alInsert_ne _ _ _ _ h]
  · intro h
    simp [Backend.hgetall, Backend.hset, alLookup_alInsert_ne _ _ _ _ h]
  · rintro (h | h)
    · simp [Backend.hget, Backend.hset, alLookup_alInsert_ne _ _ _ _ h]
    · simp only [Backend.hget, Backend.hset]
      by_cases hk : k2 = k
      · subst hk
        rw [alLookup_alInsert_self]
        show alLookup (alInsert ((alLookup b.hmap k2).getD []) fd v) fd2 = _
        rw [alLookup_alInsert_ne _ _ _ _ h]
        cases hb : alLookup b.hmap k2 with
        | none => simp [hb, alLookup]
        | some m => simp [hb]
      · rw [alLookup_alInsert_ne _ _ _ _ hk]

/-- Witness for the C10 theorem at a concrete store, distinct keys and
distinct fields. -/
theorem spec_c10_witness :
    (Backend.set Backend.new (strBytes "a") RespFrame.null).hmap = Backend.new.hmap ∧
    Backend.hget (Backend.set Backend.new (strBytes "a") RespFrame.null) (strBytes "b") (strBytes "f") = Backend.hget Backend.new (strBytes "b") (strBytes "f") ∧
    Backend.hgetall (Backend.set Backend.new (strBytes "a") RespFrame.null) (strBytes "b") = Backend.hgetall Backend.new (strBytes "b") ∧
    (Backend.hset Backend.new (strBytes "a") (strBytes "f") RespFrame.null).map = Backend.new.map ∧
    Backend.get (Backend.hset Backend.new (strBytes "a") (strBytes "f") RespFrame.null) (strBytes "b") = Backend.get Backend.new (strBytes "b") ∧
    (strBytes "b" ≠ strBytes "a" → Backend.get (Backend.set Backend.new (strBytes "a") RespFrame.null) (strBytes "b") = Backend.get Backend.new (strBytes "b")) ∧
    (strBytes "b" ≠ strBytes "a" → Backend.hgetall (Backend.hset Backend.new (strBytes "a") (strBytes "f") RespFrame.null) (strBytes "b") = Backend.hgetall Backend.new (strBytes "b")) ∧
    (strBytes "b" ≠ strBytes "a" ∨ strBytes "g" ≠ strBytes "f" → Backend.hget (Backend.hset Backend.new (strBytes "a") (strBytes "f") RespFrame.null) (strBytes "b") (strBytes "g") = Backend.hget Backend.new (strBytes "b") (strBytes "g")) :=
  spec_c10_map_hmap_disjoint Backend.new (strBytes "a") (strBytes "b") (strBytes "f")
    (strBytes "g") RespFrame.null
